import Mathlib

/-!
Verification of the snake-game engine in `src/app/page.tsx`.

The TypeScript component keeps its simulation state in React `useState`
cells mirrored into refs (`directionRef`, `queuedRef`, ...) that are kept
in sync by effect hooks; between two discrete events the refs always equal
the corresponding state cells.  The shallow embedding therefore collapses
each state/ref pair into a single field of a `Session` record and renders
every event handler (the interval callback, the keydown listener, the
pause button, the touch-control buttons) as a pure function from `Session`
to `Session` (or `Option Session` where the source can diverge or crash).

`Math.random()` draws are modelled by an explicit list of candidate
coordinates handed to the rejection-sampling loop `randomFoodPosition`;
the loop returns `none` when the list is exhausted, which models the
source looping forever (no finite number of draws makes it exit).
-/

namespace Snake

/-- Grid cell, `type Coordinate = { x: number; y: number }`. -/
@[ext] structure Coordinate where
  x : Int
  y : Int
deriving DecidableEq, Repr

/-- `type Direction = "UP" | "DOWN" | "LEFT" | "RIGHT"`. -/
inductive Direction
  | UP
  | DOWN
  | LEFT
  | RIGHT
deriving DecidableEq, Repr

/-- `type GameState = "idle" | "running" | "paused" | "over"`. -/
inductive GameState
  | idle
  | running
  | paused
  | over
deriving DecidableEq, Repr

def BOARD_SIZE : Int := 20

def TICK_BASE : Int := 160

def SPEED_STEP : Int := 6

def INITIAL_SNAKE : List Coordinate :=
  [⟨9, 10⟩, ⟨8, 10⟩, ⟨7, 10⟩]

/-- Membership test used both by the `taken` string set in
`randomFoodPosition` and by `prevSnake.some((segment) => ...)` in the tick
callback: both compare the two integer components. -/
def cellTaken (cells : List Coordinate) (c : Coordinate) : Bool :=
  cells.any fun seg => seg.x == c.x && seg.y == c.y

/-- `randomFoodPosition(forbidden)`: rejection sampling over the stream of
`Math.floor(Math.random() * BOARD_SIZE)` pairs, here made explicit as
`draws`.  The do/while loop keeps drawing while the drawn cell is taken;
`none` means the loop is still running after consuming every listed draw. -/
def randomFoodPosition (draws : List Coordinate) (forbidden : List Coordinate) :
    Option Coordinate :=
  match draws with
  | [] => none
  | c :: rest =>
      if cellTaken forbidden c then randomFoodPosition rest forbidden else some c

/-- `getNextHead(head, direction)`. -/
def getNextHead (head : Coordinate) (direction : Direction) : Coordinate :=
  match direction with
  | .UP => ⟨head.x, head.y - 1⟩
  | .DOWN => ⟨head.x, head.y + 1⟩
  | .LEFT => ⟨head.x - 1, head.y⟩
  | .RIGHT => ⟨head.x + 1, head.y⟩

/-- `isOppositeDirection(current, next)`. -/
def isOppositeDirection (current next : Direction) : Bool :=
  (current == .UP && next == .DOWN) ||
  (current == .DOWN && next == .UP) ||
  (current == .LEFT && next == .RIGHT) ||
  (current == .RIGHT && next == .LEFT)

/-- The updater inside `useHighScore`: keep the stored maximum, replacing
it when the finished score exceeds it. -/
def updateHighScore (prev score : Int) : Int :=
  if score > prev then score else prev

/-- The whole component state.  `direction` stands for the committed
heading (`direction` state plus its mirror `directionRef`), `loopRunning`
for `loopRef.current !== null`, i.e. whether the `setInterval` tick
scheduler is active (the `gameState` effect starts it exactly when the
state is `running`). -/
structure Session where
  snake : List Coordinate
  food : Coordinate
  direction : Direction
  queuedDirection : Direction
  gameState : GameState
  score : Int
  highScore : Int
  speedLevel : Int
  loopRunning : Bool
deriving DecidableEq, Repr

/-- `tickRate = useMemo(() => Math.max(60, TICK_BASE - speedLevel * SPEED_STEP))`. -/
def tickRate (speedLevel : Int) : Int :=
  max 60 (TICK_BASE - speedLevel * SPEED_STEP)

/-- `resetGame`: restores the initial snake, places fresh food avoiding
it, resets both direction cells and their refs to RIGHT, zeroes score and
speed and enters `running` (which starts the interval). -/
def resetGame (draws : List Coordinate) (s : Session) : Option Session :=
  (randomFoodPosition draws INITIAL_SNAKE).map fun newFood =>
    { snake := INITIAL_SNAKE
      food := newFood
      direction := .RIGHT
      queuedDirection := .RIGHT
      gameState := .running
      score := 0
      highScore := s.highScore
      speedLevel := 0
      loopRunning := true }

/-- The `setGameState` updater shared by `togglePause` and the Space key:
running pauses, paused resumes, idle and over restart via `resetGame`. -/
def togglePause (draws : List Coordinate) (s : Session) : Option Session :=
  match s.gameState with
  | .running => some { s with gameState := .paused, loopRunning := false }
  | .paused => some { s with gameState := .running, loopRunning := true }
  | .idle => resetGame draws s
  | .over => resetGame draws s

/-- `changeDirection(next)`: the `setQueuedDirection` updater reads the
committed heading from `directionRef`, rejects an opposite or duplicate
request, and otherwise commits the new direction at once (`setDirection`)
while queueing it. -/
def changeDirection (s : Session) (next : Direction) : Session :=
  if isOppositeDirection s.direction next || s.queuedDirection == next then s
  else { s with direction := next, queuedDirection := next }

/-- The `keyMap` record inside `handleKeyDown`. -/
def keyMap (code : String) : Option Direction :=
  match code with
  | "ArrowUp" => some .UP
  | "KeyW" => some .UP
  | "ArrowDown" => some .DOWN
  | "KeyS" => some .DOWN
  | "ArrowLeft" => some .LEFT
  | "KeyA" => some .LEFT
  | "ArrowRight" => some .RIGHT
  | "KeyD" => some .RIGHT
  | _ => none

/-- The `keydown` listener: direction keys run the same arbitration as
`changeDirection` (duplicated inline in the source); Space runs the same
updater as `togglePause`; other keys do nothing. -/
def handleKeyDown (draws : List Coordinate) (code : String) (s : Session) :
    Option Session :=
  match keyMap code with
  | some nextDirection =>
      some
        (if isOppositeDirection s.direction nextDirection then s
         else if s.queuedDirection == nextDirection then s
         else { s with direction := nextDirection, queuedDirection := nextDirection })
  | none =>
      if code == "Space" then togglePause draws s else some s

/-- The collision disjunction of the tick callback: out of bounds, or the
next head meets some segment of the pre-move snake. -/
def collides (snake : List Coordinate) (c : Coordinate) : Bool :=
  decide (c.x < 0) || decide (c.y < 0) ||
  decide (BOARD_SIZE ≤ c.x) || decide (BOARD_SIZE ≤ c.y) ||
  cellTaken snake c

/-- The `setInterval` callback of `startLoop`: commit the queued direction
(`directionRef.current = queuedRef.current`), compute the next head, stop
and end the game on collision (snake untouched, high score compared),
otherwise advance; eating keeps the whole body, places new food avoiding
the grown snake, adds 10 points and bumps the capped speed level, while a
plain move drops the tail (`newSnake.pop()`).  `none` models the source
diverging: an empty snake crashes `prevSnake[0].x` and an exhausted draw
list means `randomFoodPosition` never returned. -/
def tick (draws : List Coordinate) (s : Session) : Option Session :=
  match s.snake with
  | [] => none
  | head :: rest =>
      let currentDirection := s.queuedDirection
      let nextHead := getNextHead head currentDirection
      if collides (head :: rest) nextHead then
        some { s with
                direction := currentDirection
                gameState := .over
                loopRunning := false
                highScore := updateHighScore s.highScore s.score }
      else if nextHead.x == s.food.x && nextHead.y == s.food.y then
        match randomFoodPosition draws (nextHead :: head :: rest) with
        | none => none
        | some newFood =>
            some { s with
                    direction := currentDirection
                    snake := nextHead :: head :: rest
                    food := newFood
                    score := s.score + 10
                    speedLevel := min (s.speedLevel + 1) 12 }
      else
        some { s with
                direction := currentDirection
                snake := nextHead :: (head :: rest).dropLast }

/-- The first render: initial snake, food placed avoiding it, heading
RIGHT, game idle with the interval not yet started, score 0 and the
persisted high score loaded as `stored`. -/
def init (draws : List Coordinate) (stored : Int) : Option Session :=
  (randomFoodPosition draws INITIAL_SNAKE).map fun f =>
    { snake := INITIAL_SNAKE
      food := f
      direction := .RIGHT
      queuedDirection := .RIGHT
      gameState := .idle
      score := 0
      highScore := stored
      speedLevel := 0
      loopRunning := false }

/-- States the component can actually be in: the first render, then any
interleaving of scheduler ticks (which only fire while the interval is
installed), touch-control direction requests, keydown events and pause
button presses. -/
inductive Reachable : Session → Prop
  | init (draws : List Coordinate) (stored : Int) (s : Session) :
      init draws stored = some s → Reachable s
  | tick (draws : List Coordinate) (s s' : Session) :
      Reachable s → s.loopRunning = true → tick draws s = some s' → Reachable s'
  | turn (s : Session) (d : Direction) :
      Reachable s → Reachable (changeDirection s d)
  | key (draws : List Coordinate) (code : String) (s s' : Session) :
      Reachable s → handleKeyDown draws code s = some s' → Reachable s'
  | pause (draws : List Coordinate) (s s' : Session) :
      Reachable s → togglePause draws s = some s' → Reachable s'

/-- The data-model invariant maintained by every handler: the snake is a
nonempty duplicate-free list, the food is off the snake, and the speed
level stays inside `[0, 12]`. -/
def Inv (s : Session) : Prop :=
  s.snake ≠ [] ∧ s.snake.Nodup ∧ s.food ∉ s.snake ∧
    0 ≤ s.speedLevel ∧ s.speedLevel ≤ 12

/-! ### Basic lemmas about the helpers -/

theorem coordinate_test_eq_true_iff (a b : Coordinate) :
    (a.x == b.x && a.y == b.y) = true ↔ a = b := by
  cases a; cases b
  simp [Coordinate.ext_iff]

theorem cellTaken_eq_true_iff (cells : List Coordinate) (c : Coordinate) :
    cellTaken cells c = true ↔ c ∈ cells := by
  unfold cellTaken
  rw [List.any_eq_true]
  constructor
  · rintro ⟨seg, hseg, htest⟩
    rw [coordinate_test_eq_true_iff] at htest
    rwa [← htest]
  · intro hmem
    exact ⟨c, hmem, by simp⟩

theorem cellTaken_eq_false_iff (cells : List Coordinate) (c : Coordinate) :
    cellTaken cells c = false ↔ c ∉ cells := by
  rw [← Bool.not_eq_true, not_iff_not]
  exact cellTaken_eq_true_iff cells c

/-- When the rejection-sampling loop of `randomFoodPosition` exits, the
returned cell is guaranteed to avoid every forbidden cell. -/
theorem randomFoodPosition_spec (draws forbidden : List Coordinate) (c : Coordinate)
    (h : randomFoodPosition draws forbidden = some c) : c ∉ forbidden := by
  induction draws with
  | nil => simp [randomFoodPosition] at h
  | cons d rest ih =>
      rw [randomFoodPosition] at h
      by_cases htaken : cellTaken forbidden d
      · rw [if_pos htaken] at h
        exact ih h
      · rw [if_neg htaken] at h
        cases h
        rw [Bool.not_eq_true, cellTaken_eq_false_iff] at htaken
        exact htaken

/-! ### Unfolding the tick callback in its three scenarios -/

theorem tick_collision (draws : List Coordinate) (s : Session) (head : Coordinate)
    (rest : List Coordinate) (hsnake : s.snake = head :: rest)
    (hc : collides (head :: rest) (getNextHead head s.queuedDirection) = true) :
    tick draws s =
      some { s with
              direction := s.queuedDirection
              gameState := .over
              loopRunning := false
              highScore := updateHighScore s.highScore s.score } := by
  rw [tick, hsnake]
  simp only [hc, if_true]

theorem tick_eat (draws : List Coordinate) (s : Session) (head : Coordinate)
    (rest : List Coordinate) (newFood : Coordinate) (hsnake : s.snake = head :: rest)
    (hc : collides (head :: rest) (getNextHead head s.queuedDirection) = false)
    (heat : getNextHead head s.queuedDirection = s.food)
    (hfood : randomFoodPosition draws
      (getNextHead head s.queuedDirection :: head :: rest) = some newFood) :
    tick draws s =
      some { s with
              direction := s.queuedDirection
              snake := getNextHead head s.queuedDirection :: head :: rest
              food := newFood
              score := s.score + 10
              speedLevel := min (s.speedLevel + 1) 12 } := by
  rw [tick, hsnake]
  simp only [hc, Bool.false_eq_true, if_false]
  rw [if_pos ((coordinate_test_eq_true_iff _ _).mpr heat), hfood]

theorem tick_move (draws : List Coordinate) (s : Session) (head : Coordinate)
    (rest : List Coordinate) (hsnake : s.snake = head :: rest)
    (hc : collides (head :: rest) (getNextHead head s.queuedDirection) = false)
    (heat : getNextHead head s.queuedDirection ≠ s.food) :
    tick draws s =
      some { s with
              direction := s.queuedDirection
              snake := getNextHead head s.queuedDirection :: (head :: rest).dropLast } := by
  rw [tick, hsnake]
  simp only [hc, Bool.false_eq_true, if_false]
  rw [if_neg]
  intro htest
  exact heat ((coordinate_test_eq_true_iff _ _).mp htest)

theorem collides_eq_false_iff (snake : List Coordinate) (c : Coordinate) :
    collides snake c = false ↔
      0 ≤ c.x ∧ 0 ≤ c.y ∧ c.x < BOARD_SIZE ∧ c.y < BOARD_SIZE ∧ c ∉ snake := by
  simp only [collides, Bool.or_eq_false_iff, decide_eq_false_iff_not, not_lt, not_le,
    cellTaken_eq_false_iff]
  tauto

/-! ### Preservation of the invariant by every handler -/

theorem inv_resetGame {draws : List Coordinate} {s s' : Session}
    (h : resetGame draws s = some s') : Inv s' := by
  rw [resetGame, Option.map_eq_some'] at h
  obtain ⟨f, hfp, hs⟩ := h
  subst hs
  exact ⟨by simp [INITIAL_SNAKE], show INITIAL_SNAKE.Nodup by decide,
    randomFoodPosition_spec _ _ _ hfp, le_refl 0, by norm_num⟩

theorem inv_init {draws : List Coordinate} {stored : Int} {s : Session}
    (h : init draws stored = some s) : Inv s := by
  rw [init, Option.map_eq_some'] at h
  obtain ⟨f, hfp, hs⟩ := h
  subst hs
  exact ⟨by simp [INITIAL_SNAKE], show INITIAL_SNAKE.Nodup by decide,
    randomFoodPosition_spec _ _ _ hfp, le_refl 0, by norm_num⟩

theorem inv_changeDirection {s : Session} (hInv : Inv s) (d : Direction) :
    Inv (changeDirection s d) := by
  rw [changeDirection]
  split
  · exact hInv
  · exact hInv

theorem inv_togglePause {draws : List Coordinate} {s s' : Session} (hInv : Inv s)
    (h : togglePause draws s = some s') : Inv s' := by
  rw [togglePause] at h
  cases hgs : s.gameState <;> rw [hgs] at h
  · exact inv_resetGame h
  · injection h with h
    subst h
    exact hInv
  · injection h with h
    subst h
    exact hInv
  · exact inv_resetGame h

theorem inv_handleKeyDown {draws : List Coordinate} {code : String} {s s' : Session}
    (hInv : Inv s) (h : handleKeyDown draws code s = some s') : Inv s' := by
  rw [handleKeyDown] at h
  cases hkm : keyMap code <;> rw [hkm] at h
  · by_cases hsp : (code == "Space") = true
    · rw [if_pos hsp] at h
      exact inv_togglePause hInv h
    · rw [if_neg hsp] at h
      injection h with h
      subst h
      exact hInv
  · injection h with h
    subst h
    split
    · exact hInv
    split
    · exact hInv
    · exact hInv

theorem tick_eat_none (draws : List Coordinate) (s : Session) (head : Coordinate)
    (rest : List Coordinate) (hsnake : s.snake = head :: rest)
    (hc : collides (head :: rest) (getNextHead head s.queuedDirection) = false)
    (heat : getNextHead head s.queuedDirection = s.food)
    (hfood : randomFoodPosition draws
      (getNextHead head s.queuedDirection :: head :: rest) = none) :
    tick draws s = none := by
  rw [tick, hsnake]
  simp only [hc, Bool.false_eq_true, if_false]
  rw [if_pos ((coordinate_test_eq_true_iff _ _).mpr heat), hfood]

theorem inv_tick {draws : List Coordinate} {s s' : Session} (hInv : Inv s)
    (h : tick draws s = some s') : Inv s' := by
  obtain ⟨hne, hnodup, hfood, hsl0, hsl12⟩ := hInv
  obtain ⟨head, rest, hsnake⟩ : ∃ head rest, s.snake = head :: rest := by
    cases hs : s.snake with
    | nil => exact absurd hs hne
    | cons a l => exact ⟨a, l, rfl⟩
  have hnodup2 : (head :: rest).Nodup := hsnake ▸ hnodup
  have hfood2 : s.food ∉ head :: rest := hsnake ▸ hfood
  by_cases hc : collides (head :: rest) (getNextHead head s.queuedDirection) = true
  · rw [tick_collision draws s head rest hsnake hc] at h
    injection h with h
    subst h
    exact ⟨hne, hnodup, hfood, hsl0, hsl12⟩
  · rw [Bool.not_eq_true] at hc
    obtain ⟨-, -, -, -, hnotmem⟩ := (collides_eq_false_iff _ _).mp hc
    by_cases heat : getNextHead head s.queuedDirection = s.food
    · cases hfp : randomFoodPosition draws
        (getNextHead head s.queuedDirection :: head :: rest) with
      | none =>
          rw [tick_eat_none draws s head rest hsnake hc heat hfp] at h
          exact absurd h (by simp)
      | some f =>
          rw [tick_eat draws s head rest f hsnake hc heat hfp] at h
          injection h with h
          subst h
          refine ⟨by simp, List.nodup_cons.mpr ⟨hnotmem, hnodup2⟩,
            randomFoodPosition_spec _ _ _ hfp, ?_, min_le_right _ _⟩
          exact le_min (by linarith) (by norm_num)
    · rw [tick_move draws s head rest hsnake hc heat] at h
      injection h with h
      subst h
      have hsub : (head :: rest).dropLast.Sublist (head :: rest) :=
        List.dropLast_sublist (head :: rest)
      refine ⟨by simp, List.nodup_cons.mpr ⟨fun hm => hnotmem (hsub.mem hm), ?_⟩,
        ?_, hsl0, hsl12⟩
      · exact hnodup2.sublist hsub
      · rw [List.mem_cons, not_or]
        exact ⟨fun hf => heat hf.symm, fun hm => hfood2 (hsub.mem hm)⟩

/-- Every reachable component state satisfies the data-model invariant. -/
theorem reachable_inv {s : Session} (h : Reachable s) : Inv s := by
  induction h with
  | init draws stored s h => exact inv_init h
  | tick draws s s' _ hloop htick ih => exact inv_tick ih htick
  | turn s d _ ih => exact inv_changeDirection ih d
  | key draws code s s' _ hkey ih => exact inv_handleKeyDown ih hkey
  | pause draws s s' _ hp ih => exact inv_togglePause ih hp

theorem collides_eq_true_iff (snake : List Coordinate) (c : Coordinate) :
    collides snake c = true ↔
      c.x < 0 ∨ c.y < 0 ∨ BOARD_SIZE ≤ c.x ∨ BOARD_SIZE ≤ c.y ∨ c ∈ snake := by
  simp only [collides, Bool.or_eq_true, decide_eq_true_eq, cellTaken_eq_true_iff]
  tauto

theorem handleKeyDown_eq_changeDirection (draws : List Coordinate) (code : String)
    (s : Session) (d : Direction) (h : keyMap code = some d) :
    handleKeyDown draws code s = some (changeDirection s d) := by
  simp only [handleKeyDown, h, changeDirection, Bool.or_eq_true]
  by_cases hA : isOppositeDirection s.direction d = true
  · simp [hA]
  · by_cases hB : (s.queuedDirection == d) = true
    · simp [hA, hB]
    · simp [hA, hB]

/-! ### Demonstration states used by the concrete instances below -/

/-- The first render with the demo draw list `[(0, 0)]` and no stored
high score. -/
def demoInit : Session :=
  { snake := INITIAL_SNAKE
    food := ⟨0, 0⟩
    direction := .RIGHT
    queuedDirection := .RIGHT
    gameState := .idle
    score := 0
    highScore := 0
    speedLevel := 0
    loopRunning := false }

/-- A freshly restarted running game, reachable from `demoInit` by one
Start press with draw list `[(0, 0)]`. -/
def demoRun : Session :=
  { snake := INITIAL_SNAKE
    food := ⟨0, 0⟩
    direction := .RIGHT
    queuedDirection := .RIGHT
    gameState := .running
    score := 0
    highScore := 0
    speedLevel := 0
    loopRunning := true }

/-- A mid-game running state whose committed and queued heading are both
RIGHT, as at the start of a tick window. -/
def demoRunning : Session :=
  { snake := INITIAL_SNAKE
    food := ⟨10, 10⟩
    direction := .RIGHT
    queuedDirection := .RIGHT
    gameState := .running
    score := 0
    highScore := 0
    speedLevel := 0
    loopRunning := true }

/-- A paused mid-game state: 4-segment snake, 30 points, speed level 3. -/
def demoPaused : Session :=
  { snake := [⟨5, 5⟩, ⟨4, 5⟩, ⟨3, 5⟩, ⟨2, 5⟩]
    food := ⟨0, 0⟩
    direction := .RIGHT
    queuedDirection := .RIGHT
    gameState := .paused
    score := 30
    highScore := 30
    speedLevel := 3
    loopRunning := false }

/-- A running state one cell away from the left wall, heading LEFT. -/
def demoWall : Session :=
  { snake := [⟨0, 5⟩, ⟨1, 5⟩, ⟨2, 5⟩]
    food := ⟨10, 10⟩
    direction := .LEFT
    queuedDirection := .LEFT
    gameState := .running
    score := 20
    highScore := 0
    speedLevel := 2
    loopRunning := true }

/-- A length-4 snake curled so that a RIGHT move sends the head onto the
cell its own tail occupies before the move. -/
def demoLoop : Session :=
  { snake := [⟨5, 5⟩, ⟨5, 6⟩, ⟨6, 6⟩, ⟨6, 5⟩]
    food := ⟨10, 10⟩
    direction := .UP
    queuedDirection := .RIGHT
    gameState := .running
    score := 10
    highScore := 0
    speedLevel := 1
    loopRunning := true }

/-- The spec eating scenario: initial snake, heading RIGHT, food straight
ahead at (10, 10). -/
def demoEat : Session :=
  { snake := INITIAL_SNAKE
    food := ⟨10, 10⟩
    direction := .RIGHT
    queuedDirection := .RIGHT
    gameState := .running
    score := 0
    highScore := 0
    speedLevel := 0
    loopRunning := true }

/-- The state after the eating tick of `demoEat` with draw list `[(0, 0)]`. -/
def demoEatResult : Session :=
  { snake := [⟨10, 10⟩, ⟨9, 10⟩, ⟨8, 10⟩, ⟨7, 10⟩]
    food := ⟨0, 0⟩
    direction := .RIGHT
    queuedDirection := .RIGHT
    gameState := .running
    score := 10
    highScore := 0
    speedLevel := 1
    loopRunning := true }

/-- Every cell of the 20 by 20 board. -/
def allCells : List Coordinate :=
  (List.range 20).flatMap fun x => (List.range 20).map fun y => ⟨Int.ofNat x, Int.ofNat y⟩

theorem mem_allCells (c : Coordinate) (h1 : 0 ≤ c.x) (h2 : c.x < BOARD_SIZE)
    (h3 : 0 ≤ c.y) (h4 : c.y < BOARD_SIZE) : c ∈ allCells := by
  have h2i : c.x < 20 := h2
  have h4i : c.y < 20 := h4
  have hx : c.x.toNat ∈ List.range 20 := List.mem_range.mpr (by omega)
  have hy : c.y.toNat ∈ List.range 20 := List.mem_range.mpr (by omega)
  apply List.mem_flatMap.mpr
  refine ⟨c.x.toNat, hx, ?_⟩
  apply List.mem_map.mpr
  refine ⟨c.y.toNat, hy, ?_⟩
  ext
  · exact Int.toNat_of_nonneg h1
  · exact Int.toNat_of_nonneg h3

/-! ### The claims -/

/-- C1 (counterexample): with committed tick-start heading RIGHT, an
already-accepted UP request makes the handler accept a following LEFT
request — although LEFT is the opposite of the heading in effect at the
start of the tick, the pending direction changes from UP to LEFT, so the
arbitration does not reject relative to the tick-start heading. -/
theorem c1_counterexample :
    isOppositeDirection demoRunning.direction .LEFT = true ∧
    (changeDirection (changeDirection demoRunning .UP) .LEFT).queuedDirection =
      .LEFT ∧
    (changeDirection demoRunning .UP).queuedDirection = .UP := by
  decide

/-- C1 (amended): a turn request that is the opposite of the currently
committed heading is rejected with no state change, both by
`changeDirection` and by the keydown listener; since each accepted
request immediately commits its direction, this heading equals the most
recently accepted turn, and equals the tick-start heading only while no
turn has been accepted since the tick began. -/
theorem c1_opposite_of_committed_rejected (s : Session) (d : Direction)
    (draws : List Coordinate) (code : String)
    (h : isOppositeDirection s.direction d = true) :
    changeDirection s d = s ∧
    (keyMap code = some d → handleKeyDown draws code s = some s) := by
  constructor
  · rw [changeDirection, if_pos (by rw [h, Bool.true_or])]
  · intro hcode
    rw [handleKeyDown_eq_changeDirection draws code s d hcode,
      changeDirection, if_pos (by rw [h, Bool.true_or])]

/-- C1 (witness): heading RIGHT, request LEFT: rejected by both entry
points with the state unchanged. -/
theorem c1_witness :
    changeDirection demoRunning .LEFT = demoRunning ∧
    (keyMap "ArrowLeft" = some .LEFT →
      handleKeyDown [] "ArrowLeft" demoRunning = some demoRunning) :=
  c1_opposite_of_committed_rejected demoRunning .LEFT [] "ArrowLeft" (by decide)

/-- C2: when the forbidden list covers every in-board cell, the
rejection-sampling loop of `randomFoodPosition` rejects every draw that
`Math.floor(Math.random() * BOARD_SIZE)` can produce, so no finite
sequence of draws ever makes it return: the source loops forever and
never signals a BoardFull condition. -/
theorem c2_board_full_never_returns (draws forbidden : List Coordinate)
    (hfull : ∀ c : Coordinate,
      0 ≤ c.x → c.x < BOARD_SIZE → 0 ≤ c.y → c.y < BOARD_SIZE → c ∈ forbidden)
    (hdraws : ∀ c ∈ draws,
      0 ≤ c.x ∧ c.x < BOARD_SIZE ∧ 0 ≤ c.y ∧ c.y < BOARD_SIZE) :
    randomFoodPosition draws forbidden = none := by
  induction draws with
  | nil => rfl
  | cons d rest ih =>
      obtain ⟨h1, h2, h3, h4⟩ := hdraws d (List.mem_cons_self d rest)
      rw [randomFoodPosition,
        if_pos ((cellTaken_eq_true_iff _ _).mpr (hfull d h1 h2 h3 h4))]
      exact ih fun c hc => hdraws c (List.mem_cons_of_mem d hc)

/-- C2 (witness): with the whole board forbidden, the concrete in-board
draw (3, 4) is rejected and the loop is still running. -/
theorem c2_witness : randomFoodPosition [⟨3, 4⟩] allCells = none :=
  c2_board_full_never_returns [⟨3, 4⟩] allCells
    (fun c h1 h2 h3 h4 => mem_allCells c h1 h2 h3 h4) (by decide)

/-- C3 (counterexample): pressing Start (the button updater or Space)
while paused with 30 points, a 4-segment snake and speed level 3 yields
the same session merely switched to running — score, snake, speed, food
and direction are not reset, so the transition is a resume, not a
restart. -/
theorem c3_counterexample :
    togglePause [] demoPaused =
      some { demoPaused with gameState := .running, loopRunning := true } ∧
    handleKeyDown [] "Space" demoPaused =
      some { demoPaused with gameState := .running, loopRunning := true } ∧
    demoPaused.score = 30 ∧ demoPaused.snake ≠ INITIAL_SNAKE ∧
    demoPaused.speedLevel = 3 := by
  decide

/-- C3 (amended): issuing Start while GameState is paused resumes rather
than restarts: the game state becomes running and the tick scheduler is
restarted, while snake, food, score, speed level and direction are all
left unchanged; a full reset happens only from idle or over. -/
theorem c3_paused_start_resumes (draws : List Coordinate) (s : Session)
    (h : s.gameState = .paused) :
    togglePause draws s =
      some { s with gameState := .running, loopRunning := true } ∧
    handleKeyDown draws "Space" s =
      some { s with gameState := .running, loopRunning := true } := by
  have htp : togglePause draws s =
      some { s with gameState := .running, loopRunning := true } := by
    rw [togglePause, h]
  refine ⟨htp, ?_⟩
  have hk : keyMap "Space" = none := rfl
  rw [handleKeyDown, hk, if_pos (by rfl), htp]

/-- C3 (witness): resuming the concrete paused mid-game state. -/
theorem c3_witness :
    togglePause [⟨0, 0⟩] demoPaused =
      some { demoPaused with gameState := .running, loopRunning := true } ∧
    handleKeyDown [⟨0, 0⟩] "Space" demoPaused =
      some { demoPaused with gameState := .running, loopRunning := true } :=
  c3_paused_start_resumes [⟨0, 0⟩] demoPaused rfl

/-- C4: whenever the computed next head is out of bounds or meets a
segment of the pre-move snake, the tick ends the game before any eat
processing: the resulting session keeps the snake, food, score and speed
level exactly as they were (even if the next head is the food cell),
switches GameState to over, stops the interval and runs the high-score
comparison. -/
theorem c4_collision_ends_game (draws : List Coordinate) (s : Session)
    (head : Coordinate) (rest : List Coordinate) (hsnake : s.snake = head :: rest)
    (hc : (getNextHead head s.queuedDirection).x < 0 ∨
      (getNextHead head s.queuedDirection).y < 0 ∨
      BOARD_SIZE ≤ (getNextHead head s.queuedDirection).x ∨
      BOARD_SIZE ≤ (getNextHead head s.queuedDirection).y ∨
      getNextHead head s.queuedDirection ∈ head :: rest) :
    tick draws s =
      some { s with
              direction := s.queuedDirection
              gameState := .over
              loopRunning := false
              highScore := updateHighScore s.highScore s.score } :=
  tick_collision draws s head rest hsnake ((collides_eq_true_iff _ _).mpr hc)

/-- C4 (witness): heading LEFT into the wall from (0, 5): the game ends
with the 3-segment snake, the food and the 20 points frozen, and the
high score raised to 20. -/
theorem c4_witness :
    tick [] demoWall =
      some { demoWall with
              direction := demoWall.queuedDirection
              gameState := .over
              loopRunning := false
              highScore := updateHighScore demoWall.highScore demoWall.score } :=
  c4_collision_ends_game [] demoWall ⟨0, 5⟩ [⟨1, 5⟩, ⟨2, 5⟩] rfl (by decide)

/-- C5: the self-collision check scans the whole pre-move body, so a next
head equal to the tail cell being vacated this very tick still ends the
game instead of moving. -/
theorem c5_tail_cell_collides (draws : List Coordinate) (s : Session)
    (head : Coordinate) (rest : List Coordinate) (hsnake : s.snake = head :: rest)
    (htail : getNextHead head s.queuedDirection =
      (head :: rest).getLast (List.cons_ne_nil head rest)) :
    tick draws s =
      some { s with
              direction := s.queuedDirection
              gameState := .over
              loopRunning := false
              highScore := updateHighScore s.highScore s.score } := by
  apply tick_collision draws s head rest hsnake
  apply (collides_eq_true_iff _ _).mpr
  refine Or.inr (Or.inr (Or.inr (Or.inr ?_)))
  rw [htail]
  exact List.getLast_mem (List.cons_ne_nil head rest)

/-- C5 (witness): the curled 4-segment snake of `demoLoop` turns RIGHT
onto its own tail cell (6, 5) and the outcome is game over with the body
unchanged. -/
theorem c5_witness :
    tick [] demoLoop =
      some { demoLoop with
              direction := demoLoop.queuedDirection
              gameState := .over
              loopRunning := false
              highScore := updateHighScore demoLoop.highScore demoLoop.score } :=
  c5_tail_cell_collides [] demoLoop ⟨5, 5⟩ [⟨5, 6⟩, ⟨6, 6⟩, ⟨6, 5⟩] rfl (by decide)

/-- C6: on a collision-free tick that lands on the food the snake gains
exactly one segment (new head prepended, nothing dropped), the score
rises by exactly 10 and the speed level rises by 1 below the cap and
stays 12 at the cap; a collision-free tick that misses the food keeps the
length unchanged. -/
theorem c6_eat_grows_and_scores (draws : List Coordinate) (s s' : Session)
    (head : Coordinate) (rest : List Coordinate) (hsnake : s.snake = head :: rest)
    (hc : collides (head :: rest) (getNextHead head s.queuedDirection) = false)
    (h : tick draws s = some s') :
    (getNextHead head s.queuedDirection = s.food →
      s'.snake.length = s.snake.length + 1 ∧
      s'.snake = getNextHead head s.queuedDirection :: s.snake ∧
      s'.score = s.score + 10 ∧
      (s.speedLevel < 12 → s'.speedLevel = s.speedLevel + 1) ∧
      (s.speedLevel = 12 → s'.speedLevel = 12)) ∧
    (getNextHead head s.queuedDirection ≠ s.food →
      s'.snake.length = s.snake.length) := by
  constructor
  · intro heat
    cases hfp : randomFoodPosition draws
        (getNextHead head s.queuedDirection :: head :: rest) with
    | none =>
        rw [tick_eat_none draws s head rest hsnake hc heat hfp] at h
        exact absurd h (by simp)
    | some f =>
        rw [tick_eat draws s head rest f hsnake hc heat hfp] at h
        injection h with h
        subst h
        refine ⟨by rw [hsnake]; rfl, by rw [hsnake], rfl, ?_, ?_⟩
        · intro hlt
          show min (s.speedLevel + 1) 12 = s.speedLevel + 1
          omega
        · intro hcap
          show min (s.speedLevel + 1) 12 = 12
          omega
  · intro hneq
    rw [tick_move draws s head rest hsnake hc hneq] at h
    injection h with h
    subst h
    show (getNextHead head s.queuedDirection ::
      (head :: rest).dropLast).length = s.snake.length
    rw [hsnake, List.length_cons, List.length_dropLast, List.length_cons]
    omega

/-- C6 (witness): the spec scenario — initial snake heading RIGHT onto
food at (10, 10) grows to 4 segments, scores 10 and reaches speed level
1; the miss branch holds vacuously at this input. -/
theorem c6_witness :
    (getNextHead ⟨9, 10⟩ demoEat.queuedDirection = demoEat.food →
      demoEatResult.snake.length = demoEat.snake.length + 1 ∧
      demoEatResult.snake =
        getNextHead ⟨9, 10⟩ demoEat.queuedDirection :: demoEat.snake ∧
      demoEatResult.score = demoEat.score + 10 ∧
      (demoEat.speedLevel < 12 →
        demoEatResult.speedLevel = demoEat.speedLevel + 1) ∧
      (demoEat.speedLevel = 12 → demoEatResult.speedLevel = 12)) ∧
    (getNextHead ⟨9, 10⟩ demoEat.queuedDirection ≠ demoEat.food →
      demoEatResult.snake.length = demoEat.snake.length) :=
  c6_eat_grows_and_scores [⟨0, 0⟩] demoEat demoEatResult ⟨9, 10⟩
    [⟨8, 10⟩, ⟨7, 10⟩] rfl (by decide) (by decide)

/-- C7: in every reachable session — after the first render and after any
interleaving of ticks (eating ones included), turn requests, key events
and pause presses — the food cell is disjoint from every snake segment. -/
theorem c7_food_not_on_snake (s : Session) (h : Reachable s) :
    s.food ∉ s.snake :=
  (reachable_inv h).2.2.1

/-- C7 (witness): the initial render with draw list [(0, 0)] is reachable
and its food (0, 0) avoids the initial snake. -/
theorem c7_witness : demoInit.food ∉ demoInit.snake :=
  c7_food_not_on_snake demoInit
    (Reachable.init [⟨0, 0⟩] 0 demoInit (by decide))

/-- C8: in every reachable session the snake never occupies a cell twice:
the body list has no duplicates, so its length equals the number of
distinct coordinates in it. -/
theorem c8_snake_no_duplicates (s : Session) (h : Reachable s) :
    s.snake.Nodup ∧ s.snake.length = s.snake.dedup.length := by
  have hn := (reachable_inv h).2.1
  exact ⟨hn, by rw [List.dedup_eq_self.mpr hn]⟩

/-- C8 (witness): the running game reached from the first render by one
Start press has a duplicate-free 3-segment snake. -/
theorem c8_witness :
    demoRun.snake.Nodup ∧ demoRun.snake.length = demoRun.snake.dedup.length :=
  c8_snake_no_duplicates demoRun
    (Reachable.pause [⟨0, 0⟩] demoInit demoRun
      (Reachable.init [⟨0, 0⟩] 0 demoInit (by decide)) (by decide))

/-- C9: the tick interval is `max(60, 160 - L * 6)` milliseconds, is never
below the hard floor of 60 for any level, equals 88 at the cap of 12, and
in every reachable session (speed level capped at 12) stays at least
88 ms. -/
theorem c9_tick_interval (L : Int) (s : Session) (h : Reachable s) :
    tickRate L = max 60 (160 - L * 6) ∧
    60 ≤ tickRate L ∧
    (0 ≤ L → L ≤ 12 → 88 ≤ tickRate L) ∧
    tickRate 12 = 88 ∧
    88 ≤ tickRate s.speedLevel := by
  obtain ⟨-, -, -, hsl0, hsl12⟩ := reachable_inv h
  refine ⟨rfl, le_max_left _ _, ?_, by decide, ?_⟩
  · intro h0 h12
    show 88 ≤ max 60 (TICK_BASE - L * SPEED_STEP)
    rw [TICK_BASE, SPEED_STEP]
    omega
  · show 88 ≤ max 60 (TICK_BASE - s.speedLevel * SPEED_STEP)
    rw [TICK_BASE, SPEED_STEP]
    omega

/-- C9 (witness): at level 5 (reachable state: the first render) the
formula gives 130 ≥ 88 ≥ 60, and the cap value is 88. -/
theorem c9_witness :
    tickRate 5 = max 60 (160 - 5 * 6) ∧
    60 ≤ tickRate 5 ∧
    ((0 : Int) ≤ 5 → (5 : Int) ≤ 12 → 88 ≤ tickRate 5) ∧
    tickRate 12 = 88 ∧
    88 ≤ tickRate demoInit.speedLevel :=
  c9_tick_interval 5 demoInit (Reachable.init [⟨0, 0⟩] 0 demoInit (by decide))

/-- C10: direction input is not gated on GameState: the keydown listener
runs exactly the `changeDirection` arbitration, and both produce the same
direction update whatever the game state is — replacing the state
component commutes with the request. -/
theorem c10_direction_not_gated (s : Session) (g : GameState) (d : Direction)
    (draws : List Coordinate) (code : String) (hcode : keyMap code = some d) :
    handleKeyDown draws code s = some (changeDirection s d) ∧
    changeDirection { s with gameState := g } d =
      { changeDirection s d with gameState := g } ∧
    handleKeyDown draws code { s with gameState := g } =
      some { changeDirection s d with gameState := g } := by
  have hcomm : changeDirection { s with gameState := g } d =
      { changeDirection s d with gameState := g } := by
    rw [changeDirection, changeDirection]
    by_cases hcond : (isOppositeDirection s.direction d ||
        s.queuedDirection == d) = true
    · rw [if_pos hcond, if_pos hcond]
    · rw [if_neg hcond, if_neg hcond]
  refine ⟨handleKeyDown_eq_changeDirection draws code s d hcode, hcomm, ?_⟩
  rw [handleKeyDown_eq_changeDirection draws code _ d hcode, hcomm]

/-- C10 (witness): a W key press while the game is paused updates the
direction exactly as the touch control would, and the same input with the
state swapped to over gives the same update. -/
theorem c10_witness :
    handleKeyDown [] "KeyW" demoPaused =
      some (changeDirection demoPaused .UP) ∧
    changeDirection { demoPaused with gameState := .over } .UP =
      { changeDirection demoPaused .UP with gameState := .over } ∧
    handleKeyDown [] "KeyW" { demoPaused with gameState := .over } =
      some { changeDirection demoPaused .UP with gameState := .over } :=
  c10_direction_not_gated demoPaused .over .UP [] "KeyW" (by decide)

end Snake
